import Mathlib

/-!
Verification of the `rs-todo` command-line todo-list manager.

The development shallowly embeds `src/lib.rs` (and its duplicate
`src/main.rs`): the item data model, the JSON-file storage layer
(`load_todo_list_from_storage` / `save_todo_list_to_storage`), the pure
formatting (`ToDoItem::to_string`) and the four command handlers
(`handle_init`, `handle_new`, `handle_complete`, `handle_list`).

Modelling choices, all read off the source:
* `chrono::DateTime<Utc>` has nanosecond resolution; a `Time` is the
  signed count of nanoseconds since the Unix epoch.  `timestamp()` is
  floor division by `10^9`, which is what the `ts_seconds` serde codec
  stores.
* The storage file's parsed shape is a JSON array of records whose
  timestamps are whole epoch seconds (`ts_seconds`/`ts_seconds_option`);
  `ToDoItemSer` is that record, and `serde_json::to_string` followed by
  `from_str` is the identity on it, so the file contents are modelled as
  the list of records directly, with a separate constructor for file
  contents that do not parse as that shape.
* `fs::read_to_string` either yields contents or fails with some error
  kind (`NotFound`, `PermissionDenied`, ...); `ReadResult` is that
  outcome.  A Rust `panic!` is modelled as the `Except.error` branch.
* Item ids are `i32`; they are modelled as unbounded `Int`, exact for
  every in-range state (no claim concerns `i32` overflow).
-/

/-- Nanoseconds since the Unix epoch — the model of `chrono::DateTime<Utc>`. -/
abbrev Time := Int

/-- `ToDoItem` from the source: one entry of the todo list. -/
structure ToDoItem where
  id : Int
  text : String
  done : Bool
  created_date : Time
  completed_date : Option Time
deriving Repr, DecidableEq

/-- The record shape stored in `todo.json`: timestamps are whole epoch
seconds, as produced by the `ts_seconds` / `ts_seconds_option` codecs. -/
structure ToDoItemSer where
  id : Int
  text : String
  done : Bool
  created_date : Int
  completed_date : Option Int
deriving Repr, DecidableEq

/-- `DateTime::timestamp()`: epoch seconds, flooring the sub-second part. -/
def timestampSecs (t : Time) : Int := Int.fdiv t 1000000000

/-- Serialization of one item (the `ts_seconds` codecs truncate to seconds). -/
def serializeItem (i : ToDoItem) : ToDoItemSer :=
  ⟨i.id, i.text, i.done, timestampSecs i.created_date,
    i.completed_date.map timestampSecs⟩

/-- Deserialization of one stored record: seconds become a `DateTime`
with zero sub-second part. -/
def deserializeItem (s : ToDoItemSer) : ToDoItem :=
  ⟨s.id, s.text, s.done, s.created_date * 1000000000,
    s.completed_date.map (fun v => v * 1000000000)⟩

/-- Parsing the stored JSON array into the in-memory list. -/
def decodeItems (s : List ToDoItemSer) : List ToDoItem :=
  s.map deserializeItem

/-- `save_todo_list_to_storage`, data part: the JSON array written to
`todo.json` (serde's `to_string` then `fs::write`). -/
def save_todo_list_to_storage (todo_list : List ToDoItem) : List ToDoItemSer :=
  todo_list.map serializeItem

/-- The observable fields of an item with timestamps truncated to whole
seconds: id, text, done flag, and epoch-second timestamps. -/
def truncObs (i : ToDoItem) : Int × String × Bool × Int × Option Int :=
  (i.id, i.text, i.done, timestampSecs i.created_date,
    i.completed_date.map timestampSecs)

/-- `iter().map(|i| i.id).max()` from `handle_new`: the maximum of a list,
`none` on the empty list. -/
def maxId : List Int → Option Int
  | [] => none
  | x :: xs =>
      some (match maxId xs with
            | none => x
            | some m => max x m)

/-- `let next_id = todo_list.iter().map(|i| i.id).max().unwrap_or(0) + 1`. -/
def next_id (todo_list : List ToDoItem) : Int :=
  (maxId (todo_list.map ToDoItem.id)).getD 0 + 1

/-- The list after `handle_new` appends its freshly built item
(`done=false`, `created_date=now`, `completed_date=None`). -/
def appendNew (todo_list : List ToDoItem) (todo_text : String) (now : Time) :
    List ToDoItem :=
  todo_list ++ [⟨next_id todo_list, todo_text, false, now, none⟩]

/-- The closure `|i| i.id == id && !i.done` from `handle_complete`'s
`find`: the item is a candidate for completion. -/
def isCompletable (id : Int) (i : ToDoItem) : Bool :=
  i.id == id && !i.done

/-- The in-place mutation of the found item: `done = true`,
`completed_date = Some(now)`. -/
def markDone (now : Time) (i : ToDoItem) : ToDoItem :=
  { i with done := true, completed_date := some now }

/-- `iter_mut().find(|i| i.id == id && !i.done)` followed by the mutation:
updates the first candidate in place and yields the new list together with
the completed item's text (`completed_text`), or `none` when no candidate
exists. -/
def completeFirst (id : Int) (now : Time) : List ToDoItem → Option (List ToDoItem × String)
  | [] => none
  | i :: rest =>
      if isCompletable id i then
        some (markDone now i :: rest, i.text)
      else
        match completeFirst id now rest with
        | some (l, t) => some (i :: l, t)
        | none => none

/-- Rust's `format!("{: >4}", s)`: right-align in a 4-character field,
padding with spaces on the left; longer strings are unchanged. -/
def padLeftRust (s : String) (w : Nat) : String :=
  String.mk (List.replicate (w - s.length) ' ') ++ s

/-- Two-digit zero-padded decimal, as chrono's `%m %d %H %M %S`. -/
def pad2 (n : Nat) : String :=
  if n < 10 then "0" ++ toString n else toString n

/-- Four-digit zero-padded year, as chrono's `%Y`. -/
def pad4 (y : Int) : String :=
  let core := fun (n : Nat) =>
    let s := toString n
    String.mk (List.replicate (4 - s.length) '0') ++ s
  if y < 0 then "-" ++ core (-y).toNat else core y.toNat

/-- Proleptic-Gregorian date of a day count since 1970-01-01
(Hinnant's `civil_from_days`, the algorithm underlying chrono). -/
def civilFromDays (z : Int) : Int × Nat × Nat :=
  let z' := z + 719468
  let era := Int.fdiv z' 146097
  let doe := (z' - era * 146097).toNat
  let yoe := (doe - doe / 1460 + doe / 36524 - doe / 146096) / 365
  let doy := doe - (365 * yoe + yoe / 4 - yoe / 100)
  let mp := (5 * doy + 2) / 153
  let d := doy - (153 * mp + 2) / 5 + 1
  let m := if mp < 10 then mp + 3 else mp - 9
  let y := (yoe : Int) + era * 400 + (if m ≤ 2 then 1 else 0)
  (y, m, d)

/-- chrono's `.with_timezone(&Local).format("%Y-%m-%d %H:%M:%S")`.
`tzOffset` (seconds east of UTC) models the process's `Local` timezone
environment. -/
def formatLocalDateTime (tzOffset : Int) (t : Time) : String :=
  let totalSecs := timestampSecs t + tzOffset
  let days := Int.fdiv totalSecs 86400
  let sod := (totalSecs - days * 86400).toNat
  let ymd := civilFromDays days
  pad4 ymd.1 ++ "-" ++ pad2 ymd.2.1 ++ "-" ++ pad2 ymd.2.2 ++ " "
    ++ pad2 (sod / 3600) ++ ":" ++ pad2 (sod % 3600 / 60) ++ ":" ++ pad2 (sod % 60)

/-- `ToDoItem::format_verbose_details`: empty when not verbose, otherwise
the parenthesized created (and, when present, completed) local timestamps. -/
def ToDoItem.format_verbose_details (tzOffset : Int) (i : ToDoItem) (verbose : Bool) : String :=
  if !verbose then ""
  else
    let completed_details :=
      match i.completed_date with
      | some d => " completed: " ++ formatLocalDateTime tzOffset d
      | none => ""
    "(created: " ++ formatLocalDateTime tzOffset i.created_date
      ++ completed_details ++ ")"

/-- `ToDoItem::to_string`: `format!("{: >4} [{}] {} {}", padded_id, done,
self.text, verbose_details)` with `padded_id = format!("{}.", self.id)`. -/
def ToDoItem.to_string (tzOffset : Int) (i : ToDoItem) (verbose : Bool) : String :=
  let padded_id := toString i.id ++ "."
  let doneMark := if i.done then "X" else " "
  padLeftRust padded_id 4 ++ " [" ++ doneMark ++ "] " ++ i.text ++ " "
    ++ ToDoItem.format_verbose_details tzOffset i verbose

/-- The parse outcome of a present `todo.json`: either the expected JSON
array of records, or contents that fail `serde_json::from_str` (the
payload stands for the parse-error text interpolated into the panic). -/
inductive FileData where
  | parsable (items : List ToDoItemSer)
  | unparsable (errText : String)
deriving Repr, DecidableEq

/-- Outcome of `fs::read_to_string`: contents, or an error of some kind
(`"NotFound"` for an absent file, `"PermissionDenied"`, ...). -/
inductive ReadResult where
  | ok (data : FileData)
  | err (kind : String)
deriving Repr, DecidableEq

/-- `load_todo_list_from_storage`: reads `~/.todo/todo.json`.  Any read
error yields `none`; contents that do not deserialize as
`Vec<ToDoItem>` panic (`Except.error`); otherwise the parsed list. -/
def load_todo_list_from_storage (r : ReadResult) : Except String (Option (List ToDoItem)) :=
  match r with
  | .ok (.parsable items) => .ok (some (decodeItems items))
  | .ok (.unparsable errText) => .error ("Bad " ++ errText)
  | .err _ => .ok none

/-- The environment a handler runs in: the outcome of reading the storage
file, whether `fs::write` would succeed, the value of `Utc::now()`, and
the `Local` timezone offset. -/
structure World where
  readResult : ReadResult
  saveOk : Bool
  now : Time
  tzOffset : Int

/-- What a handler run produces: the lines printed to standard output and
the new contents of `todo.json` (`none` when `fs::write` was never
executed or failed, leaving the stored list unchanged). -/
structure HandlerOut where
  output : List String
  written : Option (List ToDoItemSer)
deriving Repr, DecidableEq

/-- The `"Couldn't load todo list from storage"` message shared by
`handle_new`, `handle_complete` and `handle_list`. -/
def couldntLoadMsg : String := "Couldn't load todo list from storage"

/-- `handle_new`: load, compute `next_id`, append the fresh item, save. -/
def handle_new (w : World) (todo_text : String) : Except String HandlerOut := do
  let todo_list ← load_todo_list_from_storage w.readResult
  match todo_list with
  | some l =>
      let l' := appendNew l todo_text w.now
      if w.saveOk then
        pure ⟨["New item (" ++ toString (next_id l) ++ ") added to to todo list."],
              some (save_todo_list_to_storage l')⟩
      else
        pure ⟨["Error: failed to write todo list to storage"], none⟩
  | none => pure ⟨[couldntLoadMsg], none⟩

/-- `handle_complete`: load, mark the first not-done item with the id,
save; report not-found when no such item exists. -/
def handle_complete (w : World) (id : Int) : Except String HandlerOut := do
  let todo_list ← load_todo_list_from_storage w.readResult
  match todo_list with
  | some l =>
      match completeFirst id w.now l with
      | some (l', completed_text) =>
          if w.saveOk then
            pure ⟨["Item " ++ toString id ++ " (" ++ completed_text ++ ") completed."],
                  some (save_todo_list_to_storage l')⟩
          else
            pure ⟨["Error: failed to write todo list to storage"], none⟩
      | none => pure ⟨["Error: item " ++ toString id ++ " not found."], none⟩
  | none => pure ⟨[couldntLoadMsg], none⟩

/-- `handle_list`: load, keep items passing `all || !i.done`, render each
with `to_string(verbose)` behind three spaces, after a `TODO List` header. -/
def handle_list (w : World) (all verbose : Bool) : Except String HandlerOut := do
  let todo_list ← load_todo_list_from_storage w.readResult
  match todo_list with
  | some l =>
      let lines := (l.filter (fun i => all || !i.done)).map
        (fun i => "   " ++ ToDoItem.to_string w.tzOffset i verbose)
      pure ⟨"TODO List\n" :: lines, none⟩
  | none => pure ⟨[couldntLoadMsg], none⟩

/-- The data-model invariant: `completed_date` is present iff `done`. -/
abbrev dateInv (i : ToDoItem) : Prop := i.completed_date.isSome = i.done

/-- `PathBuf::join` on the paths the program builds. -/
def joinPath (a b : String) : String := a ++ "/" ++ b

/-- `dirs::home_dir().join(".todo")`, the storage directory. -/
def storage_dir_path (home : String) : String := joinPath home ".todo"

/-- The file `handle_init` creates: `~/.todo/todo.txt`. -/
def init_file_path (home : String) : String :=
  joinPath (storage_dir_path home) "todo.txt"

/-- The file every other handler reads and writes: `~/.todo/todo.json`. -/
def data_file_path (home : String) : String :=
  joinPath (storage_dir_path home) "todo.json"

/-- The user's directories and files, keyed by path.  The model is the
idealized single-user filesystem: creating a directory or file fails only
because the target already exists (the source's catch-all for other
`io::ErrorKind`s is unreachable here). -/
structure FileSystem where
  dirs : List String
  files : List (String × FileData)
deriving Repr, DecidableEq

/-- Contents of the file at `p`, when it exists. -/
def lookupFile (fs : FileSystem) (p : String) : Option FileData :=
  (fs.files.find? (fun e => e.1 == p)).map Prod.snd

/-- `fs::read_to_string` against the filesystem model: an absent file is
the `NotFound` error kind. -/
def readFile (fs : FileSystem) (p : String) : ReadResult :=
  match lookupFile fs p with
  | some d => ReadResult.ok d
  | none => ReadResult.err "NotFound"

/-- A freshly created empty file: the empty string does not deserialize
as `Vec<ToDoItem>`. -/
def emptyFileData : FileData := FileData.unparsable "EOF while parsing a value"

/-- `create_storage_file`: `OpenOptions::new().write(true).create_new(true)`
— fails (with a message, leaving the filesystem unchanged) when the file
already exists, otherwise creates it empty. -/
def create_storage_file (fs : FileSystem) (path : String) : FileSystem × List String :=
  match lookupFile fs path with
  | some _ => (fs, ["Couldn't create storage file " ++ path])
  | none => (⟨fs.dirs, fs.files ++ [(path, emptyFileData)]⟩,
             ["Successfully initalised storage for todo"])

/-- `handle_init`: prints the storage path, creates `~/.todo` (an already
existing directory is fine), then creates `~/.todo/todo.txt`. -/
def handle_init (home : String) (fs : FileSystem) : FileSystem × List String :=
  let storage_dir := storage_dir_path home
  let storage_file := init_file_path home
  let pathMsg := "path: " ++ storage_dir
  if fs.dirs.contains storage_dir then
    let r := create_storage_file fs storage_file
    (r.1, pathMsg :: r.2)
  else
    let r := create_storage_file ⟨fs.dirs ++ [storage_dir], fs.files⟩ storage_file
    (r.1, pathMsg :: r.2)

theorem timestampSecs_mul (s : Int) : timestampSecs (s * 1000000000) = s := by
  unfold timestampSecs
  exact Int.mul_fdiv_cancel s (by norm_num)

theorem truncObs_roundtrip (i : ToDoItem) :
    truncObs (deserializeItem (serializeItem i)) = truncObs i := by
  unfold truncObs deserializeItem serializeItem
  cases i.completed_date <;>
    simp [timestampSecs_mul, Option.map]

/-- C5: Round-trip — for every todo list, saving with `save` and then
loading (parsing) with `load` yields an equal list: same ids, same text,
same done flags, and timestamps equal after truncation to whole seconds. -/
theorem save_load_roundtrip (l : List ToDoItem) :
    (decodeItems (save_todo_list_to_storage l)).map truncObs = l.map truncObs := by
  induction l with
  | nil => rfl
  | cons i rest ih =>
      simp only [decodeItems, save_todo_list_to_storage, List.map_cons] at ih ⊢
      rw [truncObs_roundtrip, ih]

theorem maxId_spec : ∀ (xs : List Int) (m : Int), maxId xs = some m →
    m ∈ xs ∧ ∀ j ∈ xs, j ≤ m := by
  intro xs
  induction xs with
  | nil => intro m h; cases h
  | cons x rest ih =>
      intro m h
      unfold maxId at h
      cases hr : maxId rest with
      | none =>
          rw [hr] at h
          have hx : x = m := Option.some.inj h
          subst hx
          cases rest with
          | nil => simp
          | cons y ys => simp [maxId] at hr
      | some k =>
          rw [hr] at h
          have hx : max x k = m := Option.some.inj h
          obtain ⟨hmem, hle⟩ := ih k hr
          subst hx
          constructor
          · rcases max_choice x k with hc | hc <;> rw [hc]
            · exact List.mem_cons_self x rest
            · exact List.mem_cons_of_mem x hmem
          · intro j hj
            rcases List.mem_cons.mp hj with hj | hj
            · rw [hj]; exact le_max_left x k
            · exact le_trans (hle j hj) (le_max_right x k)

theorem maxId_eq_of_isMax (xs : List Int) (k : Int)
    (hmem : k ∈ xs) (hub : ∀ j ∈ xs, j ≤ k) : maxId xs = some k := by
  cases xs with
  | nil => cases hmem
  | cons x rest =>
      have hsome : ∃ m, maxId (x :: rest) = some m := ⟨_, rfl⟩
      obtain ⟨m, hm⟩ := hsome
      obtain ⟨hmmem, hmle⟩ := maxId_spec _ m hm
      have h1 : m ≤ k := hub m hmmem
      have h2 : k ≤ m := hmle k hmem
      rw [hm, le_antisymm h1 h2]

/-- C3: `new(text)` assigns the id `max(existing ids, default 0) + 1`:
the first item of an empty list gets id 1, and when the maximum existing
id is `k` the appended item gets id `k + 1`, regardless of gaps. -/
theorem new_assigns_max_plus_one :
    (∀ todo_text now, appendNew [] todo_text now
        = [⟨1, todo_text, false, now, none⟩])
    ∧ (∀ (l : List ToDoItem) (k : Int) todo_text now,
        k ∈ l.map ToDoItem.id → (∀ j ∈ l.map ToDoItem.id, j ≤ k) →
        next_id l = k + 1
          ∧ appendNew l todo_text now = l ++ [⟨k + 1, todo_text, false, now, none⟩]) := by
  constructor
  · intro todo_text now
    rfl
  · intro l k todo_text now hmem hub
    have hnext : next_id l = k + 1 := by
      unfold next_id
      rw [maxId_eq_of_isMax _ k hmem hub]
      rfl
    exact ⟨hnext, by unfold appendNew; rw [hnext]⟩

/-- C3 witness: on the gapped list with ids 1 and 5, the next id is 6. -/
theorem new_assigns_max_plus_one_witness :
    appendNew [⟨1, "a", false, 0, none⟩, ⟨5, "b", true, 0, some 0⟩] "c" 7
      = [⟨1, "a", false, 0, none⟩, ⟨5, "b", true, 0, some 0⟩,
         ⟨6, "c", false, 7, none⟩] :=
  (new_assigns_max_plus_one.2
    [⟨1, "a", false, 0, none⟩, ⟨5, "b", true, 0, some 0⟩] 5 "c" 7
    (by decide) (by decide)).2

theorem completeFirst_eq_none (id : Int) (now : Time) :
    ∀ l : List ToDoItem, (∀ i ∈ l, isCompletable id i = false) →
      completeFirst id now l = none := by
  intro l
  induction l with
  | nil => intro _; rfl
  | cons i rest ih =>
      intro h
      unfold completeFirst
      rw [h i (List.mem_cons_self i rest),
        ih (fun j hj => h j (List.mem_cons_of_mem i hj))]
      simp

theorem completeFirst_first_match (id : Int) (now : Time) :
    ∀ (l : List ToDoItem) (k : Nat) (hk : k < l.length),
      (∀ (j : Nat) (hj : j < l.length), j < k → isCompletable id (l.get ⟨j, hj⟩) = false) →
      isCompletable id (l.get ⟨k, hk⟩) = true →
      completeFirst id now l
        = some (l.set k (markDone now (l.get ⟨k, hk⟩)), (l.get ⟨k, hk⟩).text) := by
  intro l
  induction l with
  | nil => intro k hk; exact absurd hk (Nat.not_lt_zero k)
  | cons i rest ih =>
      intro k hk hmin hhit
      cases k with
      | zero =>
          simp only [List.get] at hhit
          unfold completeFirst
          rw [hhit]
          rfl
      | succ k =>
          have hhead : isCompletable id i = false := by
            have := hmin 0 (Nat.succ_pos _) (Nat.succ_pos k)
            simpa using this
          have hk' : k < rest.length := Nat.lt_of_succ_lt_succ hk
          have hmin' : ∀ (j : Nat) (hj : j < rest.length), j < k →
              isCompletable id (rest.get ⟨j, hj⟩) = false := by
            intro j hj hjk
            have := hmin (j + 1) (Nat.succ_lt_succ hj) (Nat.succ_lt_succ hjk)
            simpa using this
          have hhit' : isCompletable id (rest.get ⟨k, hk'⟩) = true := by
            simpa using hhit
          unfold completeFirst
          rw [hhead]
          simp only [Bool.false_eq_true, if_false]
          rw [ih k hk' hmin' hhit']
          simp

theorem completeFirst_result_not_completable (id : Int) (now : Time) :
    ∀ (l l' : List ToDoItem) (t : String),
      (l.map ToDoItem.id).Nodup →
      completeFirst id now l = some (l', t) →
      ∀ i ∈ l', isCompletable id i = false := by
  intro l
  induction l with
  | nil => intro l' t _ h; cases h
  | cons i rest ih =>
      intro l' t hnd h
      have hnd' : (i.id :: rest.map ToDoItem.id).Nodup := by simpa using hnd
      have hout : i.id ∉ rest.map ToDoItem.id := (List.nodup_cons.mp hnd').1
      have hndr : (rest.map ToDoItem.id).Nodup := (List.nodup_cons.mp hnd').2
      unfold completeFirst at h
      by_cases hc : isCompletable id i = true
      · rw [hc] at h
        simp only [if_true] at h
        have hl' : markDone now i :: rest = l' := congrArg Prod.fst (Option.some.inj h)
        have hid : i.id = id := by
          have := hc
          unfold isCompletable at this
          exact beq_iff_eq.mp (Bool.and_elim_left this)
        intro j hj
        rw [← hl'] at hj
        rcases List.mem_cons.mp hj with hj | hj
        · rw [hj]
          unfold isCompletable markDone
          simp
        · unfold isCompletable
          have : j.id ≠ id := by
            intro he
            apply hout
            rw [hid, ← he]
            exact List.mem_map_of_mem ToDoItem.id hj
          simp [this]
      · have hcf : isCompletable id i = false := by
          revert hc
          cases isCompletable id i <;> simp
        rw [hcf] at h
        simp only [Bool.false_eq_true, if_false] at h
        cases hr : completeFirst id now rest with
        | none => rw [hr] at h; cases h
        | some p =>
            rw [hr] at h
            obtain ⟨l'', t''⟩ := p
            have h2 : i :: l'' = l' := congrArg Prod.fst (Option.some.inj h)
            intro j hj
            rw [← h2] at hj
            rcases List.mem_cons.mp hj with hj | hj
            · rw [hj]; exact hcf
            · exact ih l'' t'' hndr hr j hj

theorem format_verbose_details_false (tzOffset : Int) (i : ToDoItem) :
    ToDoItem.format_verbose_details tzOffset i false = "" := rfl

theorem to_string_eq (tzOffset : Int) (i : ToDoItem) (v : Bool) :
    ToDoItem.to_string tzOffset i v
      = padLeftRust (toString i.id ++ ".") 4 ++ " ["
        ++ (if i.done then "X" else " ") ++ "] " ++ i.text ++ " "
        ++ ToDoItem.format_verbose_details tzOffset i v := rfl

set_option maxHeartbeats 1000000 in
/-- C8: non-verbose rendering of `{id:1, text:"Walk the dog", done:false,
completed_date absent}` is exactly `"  1. [ ] Walk the dog "` (right-aligned
4-character id field with trailing period, space marker in brackets, the
text, trailing space where the verbose detail would go); and non-verbose
rendering never includes timestamps — it is independent of both date fields. -/
theorem render_nonverbose_spec :
    (∀ (tzOffset : Int) (c : Time),
      ToDoItem.to_string tzOffset ⟨1, "Walk the dog", false, c, none⟩ false
        = "  1. [ ] Walk the dog ")
    ∧ (∀ (tzOffset : Int) (i : ToDoItem) (c : Time) (d : Option Time),
      ToDoItem.to_string tzOffset { i with created_date := c, completed_date := d } false
        = ToDoItem.to_string tzOffset i false) := by
  constructor
  · intro tzOffset c
    rw [to_string_eq, format_verbose_details_false]
    dsimp only
    decide
  · intro tzOffset i c d
    rw [to_string_eq, to_string_eq, format_verbose_details_false,
      format_verbose_details_false]

/-- C6: `load()` returns `none` (signalling uninitialized storage, not an
error) when the storage file is absent; when the file is present but its
contents do not parse as the JSON array of items, the process panics
(the `Except.error` branch) instead of returning an error value. -/
theorem load_absent_none_corrupt_panics (fs : FileSystem) (p : String)
    (errText : String) (items : List ToDoItemSer) :
    (lookupFile fs p = none → load_todo_list_from_storage (readFile fs p) = .ok none)
    ∧ load_todo_list_from_storage (.ok (.unparsable errText))
        = .error ("Bad " ++ errText)
    ∧ load_todo_list_from_storage (.ok (.parsable items))
        = .ok (some (decodeItems items)) := by
  refine ⟨?_, rfl, rfl⟩
  intro h
  unfold readFile
  rw [h]
  rfl

/-- C6 witness: on the empty filesystem, `todo.json` is absent and load
returns `none`. -/
theorem load_absent_none_corrupt_panics_witness :
    load_todo_list_from_storage (readFile ⟨[], []⟩ "~/.todo/todo.json") = .ok none :=
  (load_absent_none_corrupt_panics ⟨[], []⟩ "~/.todo/todo.json" "" []).1 rfl

/-- C10: every failure of `fs::read_to_string` — not only `NotFound` —
makes `load()` return `none`, so a permission error is indistinguishable
from uninitialized storage, and `new`, `complete` and `list` all report
the same couldn't-load message in every such case. -/
theorem load_read_error_indistinguishable (kind : String) (sOk : Bool)
    (now : Time) (tzOffset : Int) (todo_text : String) (id : Int)
    (all verbose : Bool) :
    load_todo_list_from_storage (.err kind) = .ok none
    ∧ handle_new ⟨.err kind, sOk, now, tzOffset⟩ todo_text
        = .ok ⟨[couldntLoadMsg], none⟩
    ∧ handle_complete ⟨.err kind, sOk, now, tzOffset⟩ id
        = .ok ⟨[couldntLoadMsg], none⟩
    ∧ handle_list ⟨.err kind, sOk, now, tzOffset⟩ all verbose
        = .ok ⟨[couldntLoadMsg], none⟩ :=
  ⟨rfl, rfl, rfl, rfl⟩

theorem handle_list_parsable (s : List ToDoItemSer) (all v sOk : Bool)
    (now : Time) (tzOffset : Int) :
    handle_list ⟨.ok (.parsable s), sOk, now, tzOffset⟩ all v
      = .ok ⟨"TODO List\n" :: ((decodeItems s).filter (fun i => all || !i.done)).map
          (fun i => "   " ++ ToDoItem.to_string tzOffset i v), none⟩ := rfl

/-- C9: `list` with `all=false` renders exactly the not-done items, in
stored order, and never includes a done item; with `all=true` every item
is rendered. -/
theorem list_filters_done (s : List ToDoItemSer) (v : Bool) (sOk : Bool)
    (now : Time) (tzOffset : Int) :
    (handle_list ⟨.ok (.parsable s), sOk, now, tzOffset⟩ false v
      = .ok ⟨"TODO List\n" :: ((decodeItems s).filter (fun i => !i.done)).map
          (fun i => "   " ++ ToDoItem.to_string tzOffset i v), none⟩)
    ∧ (∀ i ∈ (decodeItems s).filter (fun i => !i.done), i.done = false)
    ∧ (handle_list ⟨.ok (.parsable s), sOk, now, tzOffset⟩ true v
      = .ok ⟨"TODO List\n" :: (decodeItems s).map
          (fun i => "   " ++ ToDoItem.to_string tzOffset i v), none⟩) := by
  refine ⟨?_, ?_, ?_⟩
  · rw [handle_list_parsable]
    simp only [Bool.false_or]
  · intro i hi
    have := List.of_mem_filter hi
    simpa using this
  · rw [handle_list_parsable]
    simp

/-- C9 witness: a done item decoded from storage is indeed reported done,
via the filter characterization at a concrete list. -/
theorem list_filters_done_witness :
    (deserializeItem ⟨1, "a", false, 0, none⟩).done = false :=
  (list_filters_done [⟨1, "a", false, 0, none⟩, ⟨2, "b", true, 0, some 0⟩]
      false true 0 0).2.1
    (deserializeItem ⟨1, "a", false, 0, none⟩) (by decide)

theorem handle_complete_parsable (s : List ToDoItemSer) (id : Int) (sOk : Bool)
    (now : Time) (tzOffset : Int) :
    handle_complete ⟨.ok (.parsable s), sOk, now, tzOffset⟩ id
      = match completeFirst id now (decodeItems s) with
        | some (l', t) =>
            if sOk then
              .ok ⟨["Item " ++ toString id ++ " (" ++ t ++ ") completed."],
                   some (save_todo_list_to_storage l')⟩
            else .ok ⟨["Error: failed to write todo list to storage"], none⟩
        | none => .ok ⟨["Error: item " ++ toString id ++ " not found."], none⟩ := rfl

theorem handle_new_parsable (s : List ToDoItemSer) (todo_text : String)
    (sOk : Bool) (now : Time) (tzOffset : Int) :
    handle_new ⟨.ok (.parsable s), sOk, now, tzOffset⟩ todo_text
      = if sOk then
          .ok ⟨["New item (" ++ toString (next_id (decodeItems s))
                  ++ ") added to to todo list."],
               some (save_todo_list_to_storage
                 (appendNew (decodeItems s) todo_text now))⟩
        else .ok ⟨["Error: failed to write todo list to storage"], none⟩ := rfl

/-- C1: `complete(id)` marks done the first item whose id matches and
whose done flag is false — setting `done=true`, `completed_date=now`,
leaving every other item unchanged — and reports success with that item's
text; when no item with that id and `done=false` exists (absent id, or
every such item already done) it reports not-found; and, for a stored
list with unique ids, completing the same id twice fails the second time. -/
theorem complete_marks_first_undone (l : List ToDoItem) (s : List ToDoItemSer)
    (id : Int) (now now2 : Time) (sOk : Bool) (tzOffset : Int) :
    (∀ (k : Nat) (hk : k < l.length),
       (∀ (j : Nat) (hj : j < l.length), j < k →
          isCompletable id (l.get ⟨j, hj⟩) = false) →
       isCompletable id (l.get ⟨k, hk⟩) = true →
       completeFirst id now l
         = some (l.set k (markDone now (l.get ⟨k, hk⟩)), (l.get ⟨k, hk⟩).text)
         ∧ (markDone now (l.get ⟨k, hk⟩)).done = true
         ∧ (markDone now (l.get ⟨k, hk⟩)).completed_date = some now)
    ∧ ((∀ i ∈ l, isCompletable id i = false) → completeFirst id now l = none)
    ∧ (∀ (l' : List ToDoItem) (completed_text : String),
        completeFirst id now (decodeItems s) = some (l', completed_text) →
        handle_complete ⟨.ok (.parsable s), true, now, tzOffset⟩ id
          = .ok ⟨["Item " ++ toString id ++ " (" ++ completed_text ++ ") completed."],
                 some (save_todo_list_to_storage l')⟩)
    ∧ ((∀ i ∈ decodeItems s, isCompletable id i = false) →
        handle_complete ⟨.ok (.parsable s), sOk, now, tzOffset⟩ id
          = .ok ⟨["Error: item " ++ toString id ++ " not found."], none⟩)
    ∧ ((l.map ToDoItem.id).Nodup →
        ∀ (l' : List ToDoItem) (completed_text : String),
          completeFirst id now l = some (l', completed_text) →
          completeFirst id now2 l' = none) := by
  refine ⟨?_, ?_, ?_, ?_, ?_⟩
  · intro k hk hmin hhit
    exact ⟨completeFirst_first_match id now l k hk hmin hhit, rfl, rfl⟩
  · exact completeFirst_eq_none id now l
  · intro l' completed_text hc
    rw [handle_complete_parsable, hc]
    rfl
  · intro hnone
    rw [handle_complete_parsable,
      completeFirst_eq_none id now (decodeItems s) hnone]
  · intro hnd l' completed_text hc
    exact completeFirst_eq_none id now2 l'
      (completeFirst_result_not_completable id now l l' completed_text hnd hc)

/-- C1 witness: on the stored list with items (1, done) and (2, not done),
completing id 2 marks item 2 done at the current time and reports its
text; id 3 (and, after the first success, id 2 again) is not found. -/
theorem complete_marks_first_undone_witness :
    completeFirst 2 5 (decodeItems [⟨1, "a", true, 0, some 0⟩, ⟨2, "b", false, 0, none⟩])
      = some ([⟨1, "a", true, 0, some 0⟩, ⟨2, "b", true, 0, some 5⟩], "b")
    ∧ completeFirst 3 5 (decodeItems [⟨1, "a", true, 0, some 0⟩, ⟨2, "b", false, 0, none⟩])
        = none
    ∧ handle_complete
        ⟨.ok (.parsable [⟨1, "a", true, 0, some 0⟩, ⟨2, "b", false, 0, none⟩]), true, 5, 0⟩ 2
        = .ok ⟨["Item 2 (b) completed."],
               some (save_todo_list_to_storage
                 [⟨1, "a", true, 0, some 0⟩, ⟨2, "b", true, 0, some 5⟩])⟩
    ∧ handle_complete
        ⟨.ok (.parsable [⟨1, "a", true, 0, some 0⟩, ⟨2, "b", false, 0, none⟩]), true, 5, 0⟩ 3
        = .ok ⟨["Error: item 3 not found."], none⟩
    ∧ completeFirst 2 7 [⟨1, "a", true, 0, some 0⟩, ⟨2, "b", true, 0, some 5⟩] = none := by
  refine ⟨?_, ?_, ?_, ?_, ?_⟩
  · exact (complete_marks_first_undone
      (decodeItems [⟨1, "a", true, 0, some 0⟩, ⟨2, "b", false, 0, none⟩])
      [⟨1, "a", true, 0, some 0⟩, ⟨2, "b", false, 0, none⟩]
      2 5 7 true 0).1 1 (by decide) (by decide) (by decide) |>.1
  · exact (complete_marks_first_undone
      (decodeItems [⟨1, "a", true, 0, some 0⟩, ⟨2, "b", false, 0, none⟩])
      [⟨1, "a", true, 0, some 0⟩, ⟨2, "b", false, 0, none⟩]
      3 5 7 true 0).2.1 (by decide)
  · exact (complete_marks_first_undone
      (decodeItems [⟨1, "a", true, 0, some 0⟩, ⟨2, "b", false, 0, none⟩])
      [⟨1, "a", true, 0, some 0⟩, ⟨2, "b", false, 0, none⟩]
      2 5 7 true 0).2.2.1
      [⟨1, "a", true, 0, some 0⟩, ⟨2, "b", true, 0, some 5⟩] "b" (by decide)
  · exact (complete_marks_first_undone
      (decodeItems [⟨1, "a", true, 0, some 0⟩, ⟨2, "b", false, 0, none⟩])
      [⟨1, "a", true, 0, some 0⟩, ⟨2, "b", false, 0, none⟩]
      3 5 7 true 0).2.2.2.1 (by decide)
  · exact (complete_marks_first_undone
      (decodeItems [⟨1, "a", true, 0, some 0⟩, ⟨2, "b", false, 0, none⟩])
      [⟨1, "a", true, 0, some 0⟩, ⟨2, "b", false, 0, none⟩]
      2 5 7 true 0).2.2.2.2 (by decide)
      [⟨1, "a", true, 0, some 0⟩, ⟨2, "b", true, 0, some 5⟩] "b" (by decide)

/-- C7: when `complete(id)` finds no item with the given id and
`done=false`, it reports not-found and performs no save — the result
carries `written = none`, so the stored list is unchanged. -/
theorem complete_notfound_no_state_change (s : List ToDoItemSer) (id : Int)
    (now : Time) (sOk : Bool) (tzOffset : Int)
    (h : ∀ i ∈ decodeItems s, isCompletable id i = false) :
    handle_complete ⟨.ok (.parsable s), sOk, now, tzOffset⟩ id
      = .ok ⟨["Error: item " ++ toString id ++ " not found."], none⟩
    ∧ ∀ out, handle_complete ⟨.ok (.parsable s), sOk, now, tzOffset⟩ id
        = .ok out → out.written = none := by
  have heq : handle_complete ⟨.ok (.parsable s), sOk, now, tzOffset⟩ id
      = .ok ⟨["Error: item " ++ toString id ++ " not found."], none⟩ := by
    rw [handle_complete_parsable, completeFirst_eq_none id now (decodeItems s) h]
  refine ⟨heq, ?_⟩
  intro out hout
  rw [heq] at hout
  rw [← Except.ok.inj hout]

/-- C7 witness: id 1 exists but is already done — the result is
not-found with no write. -/
theorem complete_notfound_no_state_change_witness :
    handle_complete ⟨.ok (.parsable [⟨1, "a", true, 0, some 0⟩]), true, 5, 0⟩ 1
      = .ok ⟨["Error: item 1 not found."], none⟩ :=
  (complete_notfound_no_state_change [⟨1, "a", true, 0, some 0⟩] 1 5 true 0
    (by decide)).1

theorem completeFirst_preserves_dateInv (id : Int) (now : Time) :
    ∀ (l l' : List ToDoItem) (t : String), completeFirst id now l = some (l', t) →
      (∀ i ∈ l, dateInv i) → ∀ i ∈ l', dateInv i := by
  intro l
  induction l with
  | nil => intro l' t h; cases h
  | cons i rest ih =>
      intro l' t hc hinv
      unfold completeFirst at hc
      by_cases hb : isCompletable id i = true
      · rw [hb] at hc
        simp only [if_true] at hc
        have hl' : markDone now i :: rest = l' := congrArg Prod.fst (Option.some.inj hc)
        intro j hj
        rw [← hl'] at hj
        rcases List.mem_cons.mp hj with hj | hj
        · rw [hj]; rfl
        · exact hinv j (List.mem_cons_of_mem i hj)
      · have hbf : isCompletable id i = false := by
          revert hb; cases isCompletable id i <;> simp
        rw [hbf] at hc
        simp only [Bool.false_eq_true, if_false] at hc
        cases hr : completeFirst id now rest with
        | none => rw [hr] at hc; cases hc
        | some p =>
            rw [hr] at hc
            obtain ⟨l'', t''⟩ := p
            have h2 : i :: l'' = l' := congrArg Prod.fst (Option.some.inj hc)
            intro j hj
            rw [← h2] at hj
            rcases List.mem_cons.mp hj with hj | hj
            · rw [hj]; exact hinv i (List.mem_cons_self i rest)
            · exact ih l'' t'' hr (fun a ha => hinv a (List.mem_cons_of_mem i ha)) j hj

/-- C4: the invariant "`completed_date` is present iff `done`" is
preserved: from a list where every item satisfies it, the list built by
`new` (appending a `done=false`, `completed_date=None` item) and the list
produced by a successful `complete` (which sets both together) again
satisfy it for every item. -/
theorem operations_preserve_date_invariant (l : List ToDoItem)
    (todo_text : String) (now : Time) (id : Int)
    (h : ∀ i ∈ l, dateInv i) :
    (∀ i ∈ appendNew l todo_text now, dateInv i)
    ∧ (∀ (l' : List ToDoItem) (t : String),
        completeFirst id now l = some (l', t) → ∀ i ∈ l', dateInv i) := by
  constructor
  · intro i hi
    rcases List.mem_append.mp hi with hi | hi
    · exact h i hi
    · rw [List.mem_singleton.mp hi]; rfl
  · intro l' t hc
    exact completeFirst_preserves_dateInv id now l l' t hc h

/-- C4 witness: the invariant holds for the item appended by `new` and
for the item updated by a successful `complete`, at a concrete list. -/
theorem operations_preserve_date_invariant_witness :
    dateInv (⟨2, "b", false, 3, none⟩ : ToDoItem)
    ∧ dateInv (⟨1, "a", true, 0, some 5⟩ : ToDoItem) :=
  ⟨(operations_preserve_date_invariant [⟨1, "a", false, 0, none⟩] "b" 3 1
      (by decide)).1 ⟨2, "b", false, 3, none⟩ (by decide),
   (operations_preserve_date_invariant [⟨1, "a", false, 0, none⟩] "b" 5 1
      (by decide)).2 [⟨1, "a", true, 0, some 5⟩] "a" (by decide)
     ⟨1, "a", true, 0, some 5⟩ (by decide)⟩

theorem init_ne_data_path (home : String) :
    init_file_path home ≠ data_file_path home := by
  intro h
  have hlen := congrArg String.length h
  simp only [init_file_path, data_file_path, storage_dir_path, joinPath,
    String.length_append] at hlen
  have h1 : ("todo.txt" : String).length = 8 := rfl
  have h2 : ("todo.json" : String).length = 9 := rfl
  rw [h1, h2] at hlen
  omega

/-- C2: on a fresh home directory, `init` creates the directory `~/.todo`
and the file `~/.todo/todo.txt`, but every other operation reads and
writes `~/.todo/todo.json` — so after `init`, `todo.json` is still absent
and a subsequent `new` fails with the couldn't-load message. -/
theorem init_creates_txt_not_json (home : String) (sOk : Bool) (now : Time)
    (tzOffset : Int) (todo_text : String) :
    (handle_init home ⟨[], []⟩).1.dirs = [storage_dir_path home]
    ∧ lookupFile (handle_init home ⟨[], []⟩).1 (init_file_path home)
        = some emptyFileData
    ∧ lookupFile (handle_init home ⟨[], []⟩).1 (data_file_path home) = none
    ∧ readFile (handle_init home ⟨[], []⟩).1 (data_file_path home)
        = .err "NotFound"
    ∧ handle_new
        ⟨readFile (handle_init home ⟨[], []⟩).1 (data_file_path home),
         sOk, now, tzOffset⟩ todo_text
        = .ok ⟨[couldntLoadMsg], none⟩ := by
  have hfs : (handle_init home ⟨[], []⟩).1
      = ⟨[storage_dir_path home], [(init_file_path home, emptyFileData)]⟩ := rfl
  have hjson : lookupFile (handle_init home ⟨[], []⟩).1 (data_file_path home)
      = none := by
    rw [hfs]
    simp only [lookupFile, List.find?]
    rw [beq_eq_false_iff_ne.mpr (init_ne_data_path home)]
    rfl
  have hread : readFile (handle_init home ⟨[], []⟩).1 (data_file_path home)
      = .err "NotFound" := by
    unfold readFile
    rw [hjson]
  refine ⟨rfl, ?_, hjson, hread, ?_⟩
  · rw [hfs]
    simp only [lookupFile, List.find?]
    rw [beq_self_eq_true]
    rfl
  · rw [hread]
    rfl
